import Mathlib

/-!
Verification of the `ncx` command proxy (src/ncx.py).

The program is a thin wrapper that resolves the real `nc` binary, spawns it
with the caller's arguments, captures stdout/stderr and the exit code,
echoes the captured output to the terminal, and asks an external backend
for an explanation, finally exiting with the child's exit code.

Shallow embedding conventions:
* Python `bytes` values are `List Nat` (each element a byte 0..255 in real runs).
* Python `str` values are `List Nat` of Unicode code points (`Str`).
* Operating-system facts (environment, filesystem probes, `shutil.which`,
  the spawn outcome) and the LangChain/OpenAI backend are oracle fields of
  a `World` record; the program text itself is translated faithfully.
* `main` returns the ordered trace of writes / backend invocations together
  with the process outcome (exit code or a propagated KeyboardInterrupt).
-/

namespace Ncx

/-- Python `str` model: a list of Unicode code points. -/
abbrev Str := List Nat

/-- Python `bytes` model: a list of byte values. -/
abbrev Bytes := List Nat

/-- Convert a Lean string literal to the code-point model. -/
def str (s : String) : Str := s.data.map Char.toNat

/-! ### UTF-8 codec (model of CPython `bytes.decode` / `str.encode` for UTF-8)

`decode1` decodes a single UTF-8 sequence from the front of a byte list,
rejecting overlong forms, surrogates and values above 0x10FFFF, exactly as
CPython's strict UTF-8 decoder does. -/

/-- Is `b` a UTF-8 continuation byte (0x80..0xBF)? -/
def isCont (b : Nat) : Bool := 0x80 ≤ b && b ≤ 0xBF

/-- Constraint on the second byte of a three-byte sequence headed by `b0`
(excludes overlong forms and surrogates). -/
def isCont3 (b0 b1 : Nat) : Bool :=
  if b0 = 0xE0 then 0xA0 ≤ b1 && b1 ≤ 0xBF
  else if b0 = 0xED then 0x80 ≤ b1 && b1 ≤ 0x9F
  else isCont b1

/-- Constraint on the second byte of a four-byte sequence headed by `b0`
(excludes overlong forms and values above 0x10FFFF). -/
def isCont4 (b0 b1 : Nat) : Bool :=
  if b0 = 0xF0 then 0x90 ≤ b1 && b1 ≤ 0xBF
  else if b0 = 0xF4 then 0x80 ≤ b1 && b1 ≤ 0x8F
  else isCont b1

/-- Decode one UTF-8 scalar from the front of `bs`: the code point and the
remaining bytes, or `none` if the head is not a valid UTF-8 sequence. -/
def decode1 : Bytes → Option (Nat × Bytes)
  | [] => none
  | b0 :: rest =>
    if b0 ≤ 0x7F then some (b0, rest)
    else if 0xC2 ≤ b0 && b0 ≤ 0xDF then
      match rest with
      | b1 :: rest1 =>
        if isCont b1 then some ((b0 - 0xC0) * 0x40 + (b1 - 0x80), rest1) else none
      | [] => none
    else if 0xE0 ≤ b0 && b0 ≤ 0xEF then
      match rest with
      | b1 :: b2 :: rest2 =>
        if isCont3 b0 b1 && isCont b2 then
          some ((b0 - 0xE0) * 0x1000 + (b1 - 0x80) * 0x40 + (b2 - 0x80), rest2)
        else none
      | _ => none
    else if 0xF0 ≤ b0 && b0 ≤ 0xF4 then
      match rest with
      | b1 :: b2 :: b3 :: rest3 =>
        if isCont4 b0 b1 && isCont b2 && isCont b3 then
          some ((b0 - 0xF0) * 0x40000 + (b1 - 0x80) * 0x1000 +
                (b2 - 0x80) * 0x40 + (b3 - 0x80), rest3)
        else none
      | _ => none
    else none

/-- UTF-8 encoding of one code point (valid scalar values only). -/
def encodeCp (n : Nat) : Bytes :=
  if n ≤ 0x7F then [n]
  else if n ≤ 0x7FF then [0xC0 + n / 0x40, 0x80 + n % 0x40]
  else if n ≤ 0xFFFF then
    [0xE0 + n / 0x1000, 0x80 + n / 0x40 % 0x40, 0x80 + n % 0x40]
  else
    [0xF0 + n / 0x40000, 0x80 + n / 0x1000 % 0x40,
     0x80 + n / 0x40 % 0x40, 0x80 + n % 0x40]

/-- UTF-8 encoding of a code-point string. -/
def encode : Str → Bytes
  | [] => []
  | c :: cs => encodeCp c ++ encode cs

/-- The Unicode replacement character U+FFFD used by `errors="replace"`. -/
def replacementChar : Nat := 0xFFFD

/-- Fueled strict decoder (model of `bytes.decode()` with default strict
errors): `none` on any invalid sequence.  The fuel is only a structural
termination device; `decodeStrict` supplies enough fuel for the whole input. -/
def decodeStrictF : Nat → Bytes → Option Str
  | _, [] => some []
  | 0, _ :: _ => none
  | fuel + 1, b0 :: rest =>
    match decode1 (b0 :: rest) with
    | some (n, r) => (decodeStrictF fuel r).map (fun t => n :: t)
    | none => none

/-- Strict UTF-8 decoding: `some` code points, or `none` on invalid input. -/
def decodeStrict (bs : Bytes) : Option Str := decodeStrictF bs.length bs

/-- Fueled replacing decoder (model of `bytes.decode(errors="replace")`,
src/ncx.py lines 129-130): an invalid byte is replaced by U+FFFD and skipped. -/
def decodeReplaceF : Nat → Bytes → Str
  | _, [] => []
  | 0, _ :: _ => []
  | fuel + 1, b0 :: rest =>
    match decode1 (b0 :: rest) with
    | some (n, r) => n :: decodeReplaceF fuel r
    | none => replacementChar :: decodeReplaceF fuel rest

/-- Total UTF-8 decoding with replacement, as used by `main` on the captured
stdout/stderr bytes. -/
def decodeReplace (bs : Bytes) : Str := decodeReplaceF bs.length bs

/-! ### Python string helpers used by the program -/

/-- Code points stripped by Python `str.strip()` (the Unicode whitespace set
used by CPython for `str`). -/
def pyIsSpace (n : Nat) : Bool :=
  (9 ≤ n && n ≤ 13) || (28 ≤ n && n ≤ 31) || n = 32 || n = 133 || n = 160 ||
  n = 0x1680 || (0x2000 ≤ n && n ≤ 0x200A) || n = 0x2028 || n = 0x2029 ||
  n = 0x202F || n = 0x205F || n = 0x3000

/-- Model of Python `s.strip()`: whitespace removed from both ends. -/
def pyStrip (s : Str) : Str :=
  ((s.dropWhile pyIsSpace).reverse.dropWhile pyIsSpace).reverse

/-- Model of Python `s.endswith("\n")`. -/
def endswithNL (s : Str) : Bool := s.getLast? == some 10

/-- Characters that `shlex.quote` leaves unquoted: ASCII word characters
and `@` `%` `+` `=` `:` `,` `.` `/` and the hyphen. -/
def shlexSafeChar (n : Nat) : Bool :=
  (48 ≤ n && n ≤ 57) || (65 ≤ n && n ≤ 90) || (97 ≤ n && n ≤ 122) ||
  n = 95 || n = 64 || n = 37 || n = 43 || n = 61 || n = 58 || n = 44 ||
  n = 46 || n = 47 || n = 45

/-- Model of Python `shlex.quote` (39 = single quote, 34 = double quote). -/
def shlexQuote (s : Str) : Str :=
  if s.isEmpty then [39, 39]
  else if s.all shlexSafeChar then s
  else [39] ++
    s.foldr (fun c acc => (if c = 39 then [39, 34, 39, 34, 39] else [c]) ++ acc) [] ++
    [39]

/-- Model of Python `" ".join(xs)` (32 = space). -/
def joinSpace : List Str → Str
  | [] => []
  | [x] => x
  | x :: xs => x ++ [32] ++ joinSpace xs

/-! ### Program model

The operating system and the LangChain/OpenAI backend are oracles packed
into a `World`; each field records what the corresponding call would
return during the run being modelled. -/

/-- Outcome of `subprocess.Popen` + `communicate` (src/ncx.py lines 83-98). -/
inductive SpawnResult where
  /-- The child ran to completion with this return code and output bytes. -/
  | ok (returncode : Int) (stdout stderr : Bytes)
  /-- `Popen` raised `FileNotFoundError`. -/
  | fileNotFound
  /-- A `KeyboardInterrupt` arrived while spawning or waiting. -/
  | interrupted
  /-- `Popen`/`communicate` raised some other `Exception` rendering as `msg`. -/
  | err (msg : Str)
deriving DecidableEq, Repr

/-- The prompt-variable dict passed to `chain.invoke` (src/ncx.py lines 115-120). -/
structure PromptVars where
  cmd : Str
  code : Int
  stdout : Str
  stderr : Str
deriving DecidableEq, Repr

/-- Outcome of the LangChain/OpenAI call inside `explain_with_ai`. -/
inductive BackendResult where
  /-- The chain returned a response with this text content. -/
  | ok (text : Str)
  /-- The call raised an ordinary `Exception` rendering as `msg`. -/
  | raisesError (msg : Str)
  /-- The call raised `KeyboardInterrupt`. -/
  | raisesInterrupt
deriving DecidableEq, Repr

/-- Oracle describing one run's environment: OS facts and backend behaviour. -/
structure World where
  /-- `os.environ.get("NC_REAL")`. -/
  env_NC_REAL : Option Str
  /-- `os.path.isfile p`. -/
  isfile : Str → Bool
  /-- `os.access p os.X_OK`. -/
  access_X_OK : Str → Bool
  /-- `shutil.which "nc"`. -/
  which_nc : Option Str
  /-- `sys.argv[1:]`. -/
  argv_tail : List Str
  /-- What spawning the resolved binary does. -/
  spawn : SpawnResult
  /-- What the LangChain/OpenAI chain does on the given prompt variables. -/
  backend : PromptVars → BackendResult

/-- One observable event of a run. -/
inductive Ev where
  /-- `sys.stdout.write s` (or `print`). -/
  | out (s : Str)
  /-- `sys.stderr.write s`. -/
  | err (s : Str)
  /-- `chain.invoke` called with these prompt variables. -/
  | call (v : PromptVars)
deriving DecidableEq, Repr

/-- How the process terminated. -/
inductive Outcome where
  /-- `sys.exit code` (or falling off `main`). -/
  | exited (code : Int)
  /-- An uncaught `KeyboardInterrupt` propagated out of `main`. -/
  | interrupted
deriving DecidableEq, Repr

/-- The trace of a run: ordered events and the final outcome. -/
structure RunResult where
  events : List Ev
  outcome : Outcome
deriving DecidableEq, Repr

/-- The sentinel exit status `2` used by every `sys.exit` on a failure path
(src/ncx.py lines 29, 79, 93, 98). -/
def SENTINEL_EXIT : Int := 2

/-- The fixed candidate paths probed by `find_real_nc` (src/ncx.py line 66). -/
def candidates : List Str :=
  [str "/usr/bin/nc", str "/bin/nc", str "/usr/local/bin/nc", str "/sbin/nc"]

/-- `os.path.isfile c and os.access c os.X_OK`. -/
def usable (w : World) (p : Str) : Bool := w.isfile p && w.access_X_OK p

/-- Result of `find_real_nc`: a path, or the stderr guidance plus `sys.exit` code. -/
inductive Resolved where
  | found (p : Str)
  | fatal (stderrMsg : Str) (exitCode : Int)
deriving DecidableEq, Repr

/-- The remediation guidance written when no binary is found (src/ncx.py lines 75-78). -/
def RESOLVE_FAIL_MSG : Str :=
  str "[ncx] Could not locate real netcat. Set NC_REAL to your nc binary, e.g.:\n  export NC_REAL=/usr/bin/nc\n"

/-- The part of `find_real_nc` after the `NC_REAL` check (src/ncx.py
lines 66-79): the first usable fixed candidate; else a truthy
`shutil.which` hit; else guidance on stderr and `sys.exit 2`. -/
def fallbackNc (w : World) : Resolved :=
  match candidates.find? (usable w) with
  | some c => .found c
  | none =>
    match w.which_nc with
    | some p => if p.isEmpty then .fatal RESOLVE_FAIL_MSG SENTINEL_EXIT else .found p
    | none => .fatal RESOLVE_FAIL_MSG SENTINEL_EXIT

/-- Model of `find_real_nc` (src/ncx.py lines 61-79): the `NC_REAL` override
when it is truthy, a file and executable by the current user; otherwise the
candidate/PATH fallback. -/
def find_real_nc (w : World) : Resolved :=
  match w.env_NC_REAL with
  | some p => if !p.isEmpty && usable w p then .found p else fallbackNc w
  | none => fallbackNc w

/-- Result of `run_nc`: the child's code and captured bytes, a fatal
stderr-message-plus-exit, or a re-raised `KeyboardInterrupt`. -/
inductive RunNcResult where
  | ok (code : Int) (stdout stderr : Bytes)
  | fatal (stderrMsg : Str) (exitCode : Int)
  | interrupt
deriving DecidableEq, Repr

/-- Model of `run_nc` (src/ncx.py lines 81-98): spawn the child; on
`FileNotFoundError` or any other `Exception` write a diagnostic and
`sys.exit 2`; re-raise `KeyboardInterrupt`. -/
def run_nc (w : World) (nc_path : Str) : RunNcResult :=
  match w.spawn with
  | .ok c o e => .ok c o e
  | .fileNotFound => .fatal (str "[ncx] nc not found at " ++ nc_path ++ [10]) SENTINEL_EXIT
  | .interrupted => .interrupt
  | .err m => .fatal (str "[ncx] Error running nc: " ++ m ++ [10]) SENTINEL_EXIT

/-- The prompt-variable dict built inside `explain_with_ai`
(src/ncx.py lines 115-120): blank-after-strip streams become `"(empty)"`. -/
def invokeVars (cmd : Str) (code : Int) (stdout stderr : Str) : PromptVars :=
  { cmd := cmd
    code := code
    stdout := if (pyStrip stdout).isEmpty then str "(empty)" else stdout
    stderr := if (pyStrip stderr).isEmpty then str "(empty)" else stderr }

/-- Terminal-echo writes for one decoded stream (src/ncx.py lines 132-139):
nothing for an empty string; the string itself; plus a lone newline when it
does not already end in one. -/
def echoWrites (s : Str) : List Str :=
  if s.isEmpty then [] else if endswithNL s then [s] else [s, [10]]

/-- The banner emitted by `print` (src/ncx.py line 141), trailing `print`
newline included. -/
def BANNER_LINE : Str := str "\n=== AI EXPLANATION (LangChain/OpenAI) ===\n" ++ [10]

/-- The reconstructed command line `cmd_str` (src/ncx.py line 127). -/
def cmdStr (w : World) (real_nc : Str) : Str :=
  real_nc ++ [32] ++ joinSpace (w.argv_tail.map shlexQuote)

/-- The prompt variables `main` hands to `explain_with_ai`
(src/ncx.py line 144 feeding lines 115-120): the command line, the child's
exit code and the two decoded-with-replacement captures. -/
def okVars (w : World) (real_nc : Str) (code : Int) (out_b err_b : Bytes) : PromptVars :=
  invokeVars (cmdStr w real_nc) code (decodeReplace out_b) (decodeReplace err_b)

/-- Events of a successful-spawn run up to and including the backend call
(src/ncx.py lines 129-144): the stdout echo, the stderr echo, the banner,
then the `chain.invoke` call. -/
def preEvents (w : World) (real_nc : Str) (code : Int) (out_b err_b : Bytes) : List Ev :=
  (echoWrites (decodeReplace out_b)).map Ev.out ++
  (echoWrites (decodeReplace err_b)).map Ev.err ++
  [Ev.out BANNER_LINE, Ev.call (okVars w real_nc code out_b err_b)]

/-- Tail of `main` after a successful spawn (src/ncx.py lines 129-152). -/
def okRun (w : World) (real_nc : Str) (code : Int) (out_b err_b : Bytes) : RunResult :=
  match w.backend (okVars w real_nc code out_b err_b) with
  | .ok text =>
      ⟨preEvents w real_nc code out_b err_b ++ [Ev.out (pyStrip text ++ [10])], .exited code⟩
  | .raisesError m =>
      ⟨preEvents w real_nc code out_b err_b ++
        [Ev.err (str "[ncx] AI explanation failed: " ++ m ++ [10])], .exited code⟩
  | .raisesInterrupt => ⟨preEvents w real_nc code out_b err_b, .interrupted⟩

/-- Model of `main` (src/ncx.py lines 124-152). -/
def main (w : World) : RunResult :=
  match find_real_nc w with
  | .fatal msg code => ⟨[.err msg], .exited code⟩
  | .found real_nc =>
    match run_nc w real_nc with
    | .fatal msg code => ⟨[.err msg], .exited code⟩
    | .interrupt => ⟨[], .interrupted⟩
    | .ok code out_b err_b => okRun w real_nc code out_b err_b

/-- Concatenation of a list of terminal writes, in order. -/
def writesText (ws : List Str) : Str := ws.foldr (· ++ ·) []

/-! ### Concrete worlds used to instantiate the theorems -/

/-- A world where `NC_REAL` points at a usable `/x/nc`, with a chosen spawn
outcome and backend behaviour. -/
def testWorld (sp : SpawnResult) (bk : PromptVars → BackendResult) : World :=
  { env_NC_REAL := some (str "/x/nc")
    isfile := fun p => p == str "/x/nc"
    access_X_OK := fun p => p == str "/x/nc"
    which_nc := none
    argv_tail := [str "80"]
    spawn := sp
    backend := bk }

/-- A world whose `NC_REAL` override is a dangling path while `/usr/bin/nc`
is a usable candidate. -/
def overrideBadWorld : World :=
  { env_NC_REAL := some (str "/bad/nc")
    isfile := fun p => p == str "/usr/bin/nc"
    access_X_OK := fun p => p == str "/usr/bin/nc"
    which_nc := none
    argv_tail := []
    spawn := .ok 0 [] []
    backend := fun _ => .ok [] }

/-- A world where nothing resolves: no override, no candidate, no PATH hit. -/
def nothingFoundWorld : World :=
  { env_NC_REAL := none
    isfile := fun _ => false
    access_X_OK := fun _ => false
    which_nc := none
    argv_tail := []
    spawn := .ok 0 [] []
    backend := fun _ => .ok [] }

/-! ### Codec lemmas -/

/-- Case analysis on a valid second byte of a three-byte sequence. -/
theorem isCont3_spec {b0 b1 : Nat} (h : isCont3 b0 b1 = true) :
    (b0 = 0xE0 ∧ 0xA0 ≤ b1 ∧ b1 ≤ 0xBF) ∨
    (b0 = 0xED ∧ 0x80 ≤ b1 ∧ b1 ≤ 0x9F) ∨
    (b0 ≠ 0xE0 ∧ b0 ≠ 0xED ∧ 0x80 ≤ b1 ∧ b1 ≤ 0xBF) := by
  unfold isCont3 isCont at h
  split_ifs at h <;> simp_all

/-- Case analysis on a valid second byte of a four-byte sequence. -/
theorem isCont4_spec {b0 b1 : Nat} (h : isCont4 b0 b1 = true) :
    (b0 = 0xF0 ∧ 0x90 ≤ b1 ∧ b1 ≤ 0xBF) ∨
    (b0 = 0xF4 ∧ 0x80 ≤ b1 ∧ b1 ≤ 0x8F) ∨
    (b0 ≠ 0xF0 ∧ b0 ≠ 0xF4 ∧ 0x80 ≤ b1 ∧ b1 ≤ 0xBF) := by
  unfold isCont4 isCont at h
  split_ifs at h <;> simp_all

/-- A successfully decoded sequence re-encodes to exactly the bytes consumed. -/
theorem decode1_encode {bs : Bytes} {n : Nat} {r : Bytes}
    (h : decode1 bs = some (n, r)) : bs = encodeCp n ++ r := by
  cases bs with
  | nil => simp [decode1] at h
  | cons b0 rest =>
    simp only [decode1] at h
    split at h
    next h1 =>
      -- one-byte sequence
      simp only [Option.some.injEq, Prod.mk.injEq] at h
      obtain ⟨rfl, rfl⟩ := h
      rw [encodeCp, if_pos h1]
      simp
    next h1 =>
      split at h
      next h2 =>
        -- two-byte sequence
        simp only [Bool.and_eq_true, decide_eq_true_eq] at h2
        split at h
        next b1 rest1 =>
          split at h
          next h3 =>
            simp only [isCont, Bool.and_eq_true, decide_eq_true_eq] at h3
            simp only [Option.some.injEq, Prod.mk.injEq] at h
            obtain ⟨rfl, rfl⟩ := h
            rw [encodeCp, if_neg (by omega), if_pos (by omega)]
            simp only [List.cons_append, List.nil_append, List.cons.injEq, and_true]
            omega
          next h3 => simp at h
        next => simp at h
      next h2 =>
        split at h
        next h3 =>
          -- three-byte sequence
          simp only [Bool.and_eq_true, decide_eq_true_eq] at h3
          split at h
          next b1 b2 rest2 =>
            split at h
            next hc =>
              simp only [Bool.and_eq_true] at hc
              obtain ⟨hc1, hc2⟩ := hc
              simp only [isCont, Bool.and_eq_true, decide_eq_true_eq] at hc2
              simp only [Option.some.injEq, Prod.mk.injEq] at h
              obtain ⟨rfl, rfl⟩ := h
              rcases isCont3_spec hc1 with ⟨he, hb, hb'⟩ | ⟨he, hb, hb'⟩ | ⟨he, he', hb, hb'⟩ <;>
                (rw [encodeCp, if_neg (by omega), if_neg (by omega), if_pos (by omega)]
                 simp only [List.cons_append, List.nil_append, List.cons.injEq, and_true]
                 omega)
            next hc => simp at h
          next => simp at h
        next h3 =>
          split at h
          next h4 =>
            -- four-byte sequence
            simp only [Bool.and_eq_true, decide_eq_true_eq] at h4
            split at h
            next b1 b2 b3 rest3 =>
              split at h
              next hc =>
                simp only [Bool.and_eq_true] at hc
                obtain ⟨⟨hc1, hc2⟩, hc3⟩ := hc
                simp only [isCont, Bool.and_eq_true, decide_eq_true_eq] at hc2 hc3
                simp only [Option.some.injEq, Prod.mk.injEq] at h
                obtain ⟨rfl, rfl⟩ := h
                rcases isCont4_spec hc1 with ⟨he, hb, hb'⟩ | ⟨he, hb, hb'⟩ | ⟨he, he', hb, hb'⟩ <;>
                  (rw [encodeCp, if_neg (by omega), if_neg (by omega), if_neg (by omega)]
                   simp only [List.cons_append, List.nil_append, List.cons.injEq, and_true]
                   omega)
              next hc => simp at h
            next => simp at h
          next h4 => simp at h

/-- Every code point encodes to at least one byte. -/
theorem encodeCp_ne_nil (n : Nat) : encodeCp n ≠ [] := by
  rw [encodeCp]
  split_ifs <;> simp

/-- Decoding one sequence strictly shortens the byte list. -/
theorem decode1_length {bs : Bytes} {n : Nat} {r : Bytes}
    (h : decode1 bs = some (n, r)) : r.length < bs.length := by
  have he := decode1_encode h
  have hp : 0 < (encodeCp n).length := List.length_pos.mpr (encodeCp_ne_nil n)
  rw [he, List.length_append]
  omega

/-- Encoding is a homomorphism for append. -/
theorem encode_append (a b : Str) : encode (a ++ b) = encode a ++ encode b := by
  induction a with
  | nil => simp [encode]
  | cons c cs ih => simp [encode, ih]

/-- Fueled half of `encode_decodeStrict`. -/
theorem encode_decodeStrictF :
    ∀ (f : Nat) (bs : Bytes) (s : Str), bs.length ≤ f →
      decodeStrictF f bs = some s → encode s = bs := by
  intro f
  induction f with
  | zero =>
    intro bs s hf h
    cases bs with
    | nil =>
      simp only [decodeStrictF, Option.some.injEq] at h
      subst h; rfl
    | cons b rest => simp at hf
  | succ f ih =>
    intro bs s hf h
    cases bs with
    | nil =>
      simp only [decodeStrictF, Option.some.injEq] at h
      subst h; rfl
    | cons b rest =>
      rw [decodeStrictF] at h
      cases h1 : decode1 (b :: rest) with
      | none => rw [h1] at h; simp at h
      | some nr =>
        obtain ⟨n, r⟩ := nr
        rw [h1] at h
        simp only [Option.map_eq_some'] at h
        obtain ⟨t, ht, rfl⟩ := h
        have hlen := decode1_length h1
        simp only [List.length_cons] at hf hlen
        have : encode t = r := ih r t (by omega) ht
        rw [encode, this, ← decode1_encode h1]

/-- A strictly decodable byte string re-encodes to itself: the decoded text
determines the original bytes exactly. -/
theorem encode_decodeStrict {bs : Bytes} {s : Str}
    (h : decodeStrict bs = some s) : encode s = bs :=
  encode_decodeStrictF bs.length bs s le_rfl h

/-- Fueled agreement of the replacing decoder with the strict decoder. -/
theorem decodeReplaceF_strict :
    ∀ (f : Nat) (bs : Bytes) (s : Str), bs.length ≤ f →
      decodeStrictF f bs = some s → decodeReplaceF f bs = s := by
  intro f
  induction f with
  | zero =>
    intro bs s hf h
    cases bs with
    | nil => simp [decodeStrictF] at h; simp [decodeReplaceF, h]
    | cons b rest => simp at hf
  | succ f ih =>
    intro bs s hf h
    cases bs with
    | nil => simp [decodeStrictF] at h; simp [decodeReplaceF, h]
    | cons b rest =>
      rw [decodeStrictF] at h
      rw [decodeReplaceF]
      cases h1 : decode1 (b :: rest) with
      | none => rw [h1] at h; simp at h
      | some nr =>
        obtain ⟨n, r⟩ := nr
        rw [h1] at h
        simp only [Option.map_eq_some'] at h
        obtain ⟨t, ht, rfl⟩ := h
        have hlen := decode1_length h1
        simp only [List.length_cons] at hf hlen
        show n :: decodeReplaceF f r = n :: t
        rw [ih r t (by omega) ht]

/-- On strictly decodable input, `decodeReplace` and `decodeStrict` agree. -/
theorem decodeReplace_strict {bs : Bytes} {s : Str}
    (h : decodeStrict bs = some s) : decodeReplace bs = s :=
  decodeReplaceF_strict bs.length bs s le_rfl h

/-- Fueled half of `replacementChar_mem_decodeReplace`. -/
theorem replacementChar_mem_decodeReplaceF :
    ∀ (f : Nat) (bs : Bytes), bs.length ≤ f →
      decodeStrictF f bs = none → replacementChar ∈ decodeReplaceF f bs := by
  intro f
  induction f with
  | zero =>
    intro bs hf h
    cases bs with
    | nil => simp [decodeStrictF] at h
    | cons b rest => simp at hf
  | succ f ih =>
    intro bs hf h
    cases bs with
    | nil => simp [decodeStrictF] at h
    | cons b rest =>
      rw [decodeStrictF] at h
      rw [decodeReplaceF]
      cases h1 : decode1 (b :: rest) with
      | none => simp
      | some nr =>
        obtain ⟨n, r⟩ := nr
        rw [h1] at h
        simp only [Option.map_eq_none'] at h
        have hlen := decode1_length h1
        simp only [List.length_cons] at hf hlen
        show replacementChar ∈ n :: decodeReplaceF f r
        exact List.mem_cons_of_mem n (ih r (by omega) h)

/-- On input the strict decoder rejects, the replacing decoder emits at
least one replacement character U+FFFD. -/
theorem replacementChar_mem_decodeReplace {bs : Bytes}
    (h : decodeStrict bs = none) : replacementChar ∈ decodeReplace bs :=
  replacementChar_mem_decodeReplaceF bs.length bs le_rfl h

/-- An all-whitespace string strips to nothing. -/
theorem pyStrip_eq_nil {s : Str} (h : ∀ c ∈ s, pyIsSpace c = true) :
    pyStrip s = [] := by
  unfold pyStrip
  rw [List.dropWhile_eq_nil_iff.mpr h]
  simp

/-! ### Run-level helper lemmas -/

/-- After a successful resolution and spawn, `main` is the ok-branch tail. -/
theorem main_spawn_ok {w : World} {p : Str} {c : Int} {out err : Bytes}
    (hf : find_real_nc w = .found p) (hs : w.spawn = .ok c out err) :
    main w = okRun w p c out err := by
  simp only [main, run_nc, hf, hs]

/-- When resolution fails, `main` writes the message and exits with its code. -/
theorem main_find_fatal {w : World} {m : Str} {ec : Int}
    (hf : find_real_nc w = .fatal m ec) :
    main w = ⟨[Ev.err m], .exited ec⟩ := by
  simp only [main, hf]

/-- Resolution only ever fails with the fixed guidance and the sentinel code. -/
theorem find_fatal_inv {w : World} {m : Str} {ec : Int}
    (hf : find_real_nc w = .fatal m ec) :
    m = RESOLVE_FAIL_MSG ∧ ec = SENTINEL_EXIT := by
  unfold find_real_nc fallbackNc at hf
  repeat' split at hf
  all_goals simp_all

/-- No backend-call event hides among terminal-echo write events. -/
theorem call_not_mem_echo (v : PromptVars) (xs ys : List Str) :
    Ev.call v ∉ xs.map Ev.out ++ ys.map Ev.err := by
  simp

/-- For a nonempty decoded stream, the echo is the stream itself, with one
newline appended exactly when the stream does not already end in one. -/
theorem writesText_echoWrites {s : Str} (h : ¬s = []) :
    writesText (echoWrites s) = if endswithNL s then s else s ++ [10] := by
  have h' : s.isEmpty = false := by simpa using h
  cases hnl : endswithNL s <;>
    simp [echoWrites, writesText, h', hnl]

/-- The bytes a well-formed stream's echo puts on the terminal are the
captured bytes, or the captured bytes plus one newline. -/
theorem encode_echo {bs : Bytes} {s : Str} (h : decodeStrict bs = some s) :
    encode (writesText (echoWrites s)) = bs ∨
    encode (writesText (echoWrites s)) = bs ++ [10] := by
  have henc := encode_decodeStrict h
  by_cases hnil : s = []
  · subst hnil
    left
    simpa [echoWrites, writesText, encode] using henc
  · rw [writesText_echoWrites hnil]
    cases hnl : endswithNL s
    · right
      rw [if_neg (by simp [hnl])]
      simp [encode_append, henc, encode, encodeCp]
    · left
      rw [if_pos (by simp [hnl])]
      exact henc

/-- On a successful spawn, the trace is the two echoes, the banner, the
backend call, then a backend-dependent tail. -/
theorem okRun_events_shape (w : World) (real_nc : Str) (code : Int) (out_b err_b : Bytes) :
    ∃ post, (okRun w real_nc code out_b err_b).events =
      ((echoWrites (decodeReplace out_b)).map Ev.out ++
       (echoWrites (decodeReplace err_b)).map Ev.err) ++
      (Ev.out BANNER_LINE :: Ev.call (okVars w real_nc code out_b err_b) :: post) := by
  unfold okRun
  cases hb : w.backend (okVars w real_nc code out_b err_b) with
  | ok text =>
    exact ⟨[Ev.out (pyStrip text ++ [10])], by simp [preEvents]⟩
  | raisesError m =>
    exact ⟨[Ev.err (str "[ncx] AI explanation failed: " ++ m ++ [10])], by simp [preEvents]⟩
  | raisesInterrupt =>
    exact ⟨[], by simp [preEvents]⟩

/-! ### The claims -/

/-- C1: whenever the child was spawned successfully and exited with code `c`
(for every `c` in 0–255), `main` terminates with exit code `c`, both when
the backend call returns normally and when it raises an ordinary error
(that is, whenever it does not raise `KeyboardInterrupt`). -/
theorem c1_exit_code_propagation (w : World) (p : Str) (c : Int) (out err : Bytes)
    (hf : find_real_nc w = .found p) (hs : w.spawn = .ok c out err)
    (hc0 : 0 ≤ c) (hc255 : c ≤ 255)
    (hb : ∀ v, w.backend v ≠ .raisesInterrupt) :
    (main w).outcome = .exited c := by
  rw [main_spawn_ok hf hs]
  unfold okRun
  cases hbv : w.backend (okVars w p c out err) with
  | ok text => rfl
  | raisesError m => rfl
  | raisesInterrupt => exact absurd hbv (hb _)

theorem c1_exit_code_propagation_witness :
    find_real_nc (testWorld (.ok 7 [] []) (fun _ => .ok [])) = .found (str "/x/nc") ∧
    (main (testWorld (.ok 7 [] []) (fun _ => .ok []))).outcome = .exited 7 :=
  ⟨by decide,
   c1_exit_code_propagation (testWorld (.ok 7 [] []) (fun _ => .ok []))
     (str "/x/nc") 7 [] [] (by decide) rfl (by decide) (by decide)
     (fun _ h => BackendResult.noConfusion h)⟩

/-- C4: when resolution fails (all three probes), and when the spawn fails
(`FileNotFoundError` or any other exception), the program writes a stderr
diagnostic, exits with the one fixed sentinel code, and never reaches the
interpretation call. -/
theorem c4_sentinel_failure_paths (w : World) :
    (∀ m ec, find_real_nc w = .fatal m ec →
      (main w).outcome = .exited SENTINEL_EXIT ∧
      (∃ d, Ev.err d ∈ (main w).events) ∧ (∀ v, Ev.call v ∉ (main w).events)) ∧
    (∀ p, find_real_nc w = .found p → w.spawn = .fileNotFound →
      (main w).outcome = .exited SENTINEL_EXIT ∧
      (∃ d, Ev.err d ∈ (main w).events) ∧ (∀ v, Ev.call v ∉ (main w).events)) ∧
    (∀ p m, find_real_nc w = .found p → w.spawn = .err m →
      (main w).outcome = .exited SENTINEL_EXIT ∧
      (∃ d, Ev.err d ∈ (main w).events) ∧ (∀ v, Ev.call v ∉ (main w).events)) := by
  refine ⟨?_, ?_, ?_⟩
  · intro m ec hf
    obtain ⟨rfl, rfl⟩ := find_fatal_inv hf
    rw [main_find_fatal hf]
    exact ⟨rfl, ⟨_, List.mem_singleton_self _⟩, fun v => by simp⟩
  · intro p hf hs
    have hm : main w =
        ⟨[Ev.err (str "[ncx] nc not found at " ++ p ++ [10])], .exited SENTINEL_EXIT⟩ := by
      simp only [main, run_nc, hf, hs]
    rw [hm]
    exact ⟨rfl, ⟨_, List.mem_singleton_self _⟩, fun v => by simp⟩
  · intro p m hf hs
    have hm : main w =
        ⟨[Ev.err (str "[ncx] Error running nc: " ++ m ++ [10])], .exited SENTINEL_EXIT⟩ := by
      simp only [main, run_nc, hf, hs]
    rw [hm]
    exact ⟨rfl, ⟨_, List.mem_singleton_self _⟩, fun v => by simp⟩

theorem c4_sentinel_failure_paths_witness :
    ((main nothingFoundWorld).outcome = .exited SENTINEL_EXIT ∧
      (∃ d, Ev.err d ∈ (main nothingFoundWorld).events) ∧
      (∀ v, Ev.call v ∉ (main nothingFoundWorld).events)) ∧
    ((main (testWorld .fileNotFound (fun _ => .ok []))).outcome = .exited SENTINEL_EXIT ∧
      (∃ d, Ev.err d ∈ (main (testWorld .fileNotFound (fun _ => .ok []))).events) ∧
      (∀ v, Ev.call v ∉ (main (testWorld .fileNotFound (fun _ => .ok []))).events)) ∧
    ((main (testWorld (.err (str "boom")) (fun _ => .ok []))).outcome = .exited SENTINEL_EXIT ∧
      (∃ d, Ev.err d ∈ (main (testWorld (.err (str "boom")) (fun _ => .ok []))).events) ∧
      (∀ v, Ev.call v ∉ (main (testWorld (.err (str "boom")) (fun _ => .ok []))).events)) :=
  ⟨(c4_sentinel_failure_paths nothingFoundWorld).1 RESOLVE_FAIL_MSG SENTINEL_EXIT (by decide),
   (c4_sentinel_failure_paths (testWorld .fileNotFound (fun _ => .ok []))).2.1
     (str "/x/nc") (by decide) rfl,
   (c4_sentinel_failure_paths (testWorld (.err (str "boom")) (fun _ => .ok []))).2.2
     (str "/x/nc") (str "boom") (by decide) rfl⟩

/-- C5: a `KeyboardInterrupt` during the child wait propagates (no
interpretation is attempted), and a `KeyboardInterrupt` inside the
interpretation step also propagates; neither becomes a normal exit. -/
theorem c5_keyboard_interrupt_propagates (w : World) :
    (∀ p, find_real_nc w = .found p → w.spawn = .interrupted →
      (main w).outcome = .interrupted ∧ ∀ v, Ev.call v ∉ (main w).events) ∧
    (∀ p c out err, find_real_nc w = .found p → w.spawn = .ok c out err →
      w.backend (okVars w p c out err) = .raisesInterrupt →
      (main w).outcome = .interrupted) := by
  constructor
  · intro p hf hs
    have hm : main w = ⟨[], .interrupted⟩ := by
      simp only [main, run_nc, hf, hs]
    rw [hm]
    exact ⟨rfl, fun v => by simp⟩
  · intro p c out err hf hs hb
    rw [main_spawn_ok hf hs]
    unfold okRun
    rw [hb]

theorem c5_keyboard_interrupt_propagates_witness :
    ((main (testWorld .interrupted (fun _ => .ok []))).outcome = .interrupted ∧
      (∀ v, Ev.call v ∉ (main (testWorld .interrupted (fun _ => .ok []))).events)) ∧
    (main (testWorld (.ok 3 [] []) (fun _ => .raisesInterrupt))).outcome = .interrupted :=
  ⟨(c5_keyboard_interrupt_propagates (testWorld .interrupted (fun _ => .ok []))).1
     (str "/x/nc") (by decide) rfl,
   (c5_keyboard_interrupt_propagates (testWorld (.ok 3 [] []) (fun _ => .raisesInterrupt))).2
     (str "/x/nc") 3 [] [] (by decide) rfl rfl⟩

/-- C6: decoding the captured bytes is total: on strictly decodable input
the replacing decoder used by `main` agrees with strict decoding, and on
any undecodable input it yields the replacement marker U+FFFD instead of
raising. -/
theorem c6_decode_total_with_replacement (bs : Bytes) :
    (∀ s, decodeStrict bs = some s → decodeReplace bs = s) ∧
    (decodeStrict bs = none → replacementChar ∈ decodeReplace bs) :=
  ⟨fun _ h => decodeReplace_strict h, fun h => replacementChar_mem_decodeReplace h⟩

theorem c6_decode_total_with_replacement_witness :
    decodeStrict [0xC0, 65] = none ∧ replacementChar ∈ decodeReplace [0xC0, 65] :=
  ⟨by decide, (c6_decode_total_with_replacement [0xC0, 65]).2 (by decide)⟩

/-- C7: a captured stream whose decoding is empty or whitespace-only is
rendered, in the prompt variables handed to the backend call, as the
explicit placeholder `"(empty)"` rather than as a blank field. -/
theorem c7_whitespace_placeholder (w : World) (p : Str) (c : Int) (out err : Bytes)
    (hf : find_real_nc w = .found p) (hs : w.spawn = .ok c out err) :
    ((∀ ch ∈ decodeReplace out, pyIsSpace ch = true) →
      ∃ pre post v, (main w).events = pre ++ Ev.call v :: post ∧
        v.stdout = str "(empty)") ∧
    ((∀ ch ∈ decodeReplace err, pyIsSpace ch = true) →
      ∃ pre post v, (main w).events = pre ++ Ev.call v :: post ∧
        v.stderr = str "(empty)") := by
  rw [main_spawn_ok hf hs]
  obtain ⟨post, hsh⟩ := okRun_events_shape w p c out err
  constructor
  · intro hws
    refine ⟨((echoWrites (decodeReplace out)).map Ev.out ++
             (echoWrites (decodeReplace err)).map Ev.err) ++ [Ev.out BANNER_LINE],
            post, okVars w p c out err, ?_, ?_⟩
    · rw [hsh]; simp
    · simp [okVars, invokeVars, pyStrip_eq_nil hws]
  · intro hws
    refine ⟨((echoWrites (decodeReplace out)).map Ev.out ++
             (echoWrites (decodeReplace err)).map Ev.err) ++ [Ev.out BANNER_LINE],
            post, okVars w p c out err, ?_, ?_⟩
    · rw [hsh]; simp
    · simp [okVars, invokeVars, pyStrip_eq_nil hws]

theorem c7_whitespace_placeholder_witness :
    (∃ pre post v,
      (main (testWorld (.ok 0 [32] [9, 10]) (fun _ => .ok []))).events =
        pre ++ Ev.call v :: post ∧ v.stdout = str "(empty)") ∧
    (∃ pre post v,
      (main (testWorld (.ok 0 [32] [9, 10]) (fun _ => .ok []))).events =
        pre ++ Ev.call v :: post ∧ v.stderr = str "(empty)") :=
  ⟨(c7_whitespace_placeholder (testWorld (.ok 0 [32] [9, 10]) (fun _ => .ok []))
      (str "/x/nc") 0 [32] [9, 10] (by decide) rfl).1 (by decide),
   (c7_whitespace_placeholder (testWorld (.ok 0 [32] [9, 10]) (fun _ => .ok []))
      (str "/x/nc") 0 [32] [9, 10] (by decide) rfl).2 (by decide)⟩

/-- C10: after a successful spawn the AI-explanation banner is written to
stdout strictly before the backend is invoked — in particular it appears
even in runs where the interpretation step then fails. -/
theorem c10_banner_precedes_backend_call (w : World) (p : Str) (c : Int) (out err : Bytes)
    (hf : find_real_nc w = .found p) (hs : w.spawn = .ok c out err) :
    ∃ pre post v, (main w).events = pre ++ Ev.out BANNER_LINE :: Ev.call v :: post ∧
      ∀ u, Ev.call u ∉ pre := by
  rw [main_spawn_ok hf hs]
  obtain ⟨post, hsh⟩ := okRun_events_shape w p c out err
  exact ⟨_, post, okVars w p c out err, hsh, fun u => call_not_mem_echo u _ _⟩

theorem c10_banner_precedes_backend_call_witness :
    ∃ pre post v,
      (main (testWorld (.ok 1 [104] []) (fun _ => .raisesError (str "api down")))).events =
        pre ++ Ev.out BANNER_LINE :: Ev.call v :: post ∧ ∀ u, Ev.call u ∉ pre :=
  c10_banner_precedes_backend_call
    (testWorld (.ok 1 [104] []) (fun _ => .raisesError (str "api down")))
    (str "/x/nc") 1 [104] [] (by decide) rfl

/-- C2: for a well-behaved child (captures strictly decodable), the bytes
the echo step writes for each stream are exactly the captured bytes, or the
captured bytes with a single appended newline, and the echo events open the
trace unchanged. -/
theorem c2_echo_byte_fidelity (w : World) (p : Str) (c : Int) (out err : Bytes)
    (so se : Str)
    (hf : find_real_nc w = .found p) (hs : w.spawn = .ok c out err)
    (ho : decodeStrict out = some so) (he : decodeStrict err = some se) :
    (encode (writesText (echoWrites so)) = out ∨
     encode (writesText (echoWrites so)) = out ++ [10]) ∧
    (encode (writesText (echoWrites se)) = err ∨
     encode (writesText (echoWrites se)) = err ++ [10]) ∧
    ∃ rest, (main w).events =
      ((echoWrites so).map Ev.out ++ (echoWrites se).map Ev.err) ++ rest := by
  refine ⟨encode_echo ho, encode_echo he, ?_⟩
  rw [main_spawn_ok hf hs]
  obtain ⟨post, hsh⟩ := okRun_events_shape w p c out err
  rw [decodeReplace_strict ho, decodeReplace_strict he] at hsh
  exact ⟨_, hsh⟩

theorem c2_echo_byte_fidelity_witness :
    (encode (writesText (echoWrites [104, 105])) = [104, 105] ∨
     encode (writesText (echoWrites [104, 105])) = [104, 105] ++ [10]) ∧
    (encode (writesText (echoWrites [10])) = [10] ∨
     encode (writesText (echoWrites [10])) = [10] ++ [10]) ∧
    ∃ rest, (main (testWorld (.ok 0 [104, 105] [10]) (fun _ => .ok []))).events =
      ((echoWrites [104, 105]).map Ev.out ++ (echoWrites [10]).map Ev.err) ++ rest :=
  c2_echo_byte_fidelity (testWorld (.ok 0 [104, 105] [10]) (fun _ => .ok []))
    (str "/x/nc") 0 [104, 105] [10] [104, 105] [10] (by decide) rfl (by decide) (by decide)

/-- C3 counterexample: in a world where `NC_REAL` is set to a path that is
neither a file nor executable while `/usr/bin/nc` is usable, resolution
does not fail with the sentinel — it silently falls back and returns
`/usr/bin/nc`. -/
theorem c3_counterexample :
    overrideBadWorld.env_NC_REAL = some (str "/bad/nc") ∧
    usable overrideBadWorld (str "/bad/nc") = false ∧
    find_real_nc overrideBadWorld = .found (str "/usr/bin/nc") := by
  decide

/-- C3 amended: when the `NC_REAL` override is untruthy, missing or not
executable, resolution silently continues with the candidate-paths-then-PATH
fallback (and fails with the sentinel only if that also fails). -/
theorem c3_invalid_override_falls_back (w : World) (p : Str)
    (he : w.env_NC_REAL = some p)
    (hbad : (!p.isEmpty && usable w p) = false) :
    find_real_nc w = fallbackNc w := by
  simp [find_real_nc, he, hbad]

theorem c3_invalid_override_falls_back_witness :
    overrideBadWorld.env_NC_REAL = some (str "/bad/nc") ∧
    (!(str "/bad/nc").isEmpty && usable overrideBadWorld (str "/bad/nc")) = false ∧
    find_real_nc overrideBadWorld = fallbackNc overrideBadWorld :=
  ⟨rfl, by decide,
   c3_invalid_override_falls_back overrideBadWorld (str "/bad/nc") rfl (by decide)⟩

/-- C8 counterexample: an empty decoded stdout does not end in a newline,
yet the echo appends nothing (run: child exits 0 with empty stdout; the
trace contains no stdout-echo write at all before the banner). -/
theorem c8_counterexample :
    endswithNL (decodeReplace []) = false ∧
    writesText (echoWrites (decodeReplace [])) ≠ decodeReplace [] ++ [10] ∧
    (main (testWorld (.ok 0 [] [104]) (fun _ => .ok []))).events =
      [Ev.err [104], Ev.err [10], Ev.out BANNER_LINE,
       Ev.call (invokeVars (str "/x/nc 80") 0 [] [104]), Ev.out [10]] := by
  decide

/-- C8 amended: for a NONEMPTY decoded stream the terminal echo appends
exactly one newline iff the text does not already end in one; an empty
decoded stream is not echoed at all; and in every case the text handed to
the transcript/interpretation step is the un-normalized decoded capture. -/
theorem c8_echo_newline_normalization (w : World) (p : Str) (c : Int) (out err : Bytes)
    (hf : find_real_nc w = .found p) (hs : w.spawn = .ok c out err) :
    (decodeReplace out ≠ [] →
      writesText (echoWrites (decodeReplace out)) =
        (if endswithNL (decodeReplace out) then decodeReplace out
         else decodeReplace out ++ [10])) ∧
    (decodeReplace out = [] → echoWrites (decodeReplace out) = []) ∧
    (decodeReplace err ≠ [] →
      writesText (echoWrites (decodeReplace err)) =
        (if endswithNL (decodeReplace err) then decodeReplace err
         else decodeReplace err ++ [10])) ∧
    (decodeReplace err = [] → echoWrites (decodeReplace err) = []) ∧
    ∃ post, (main w).events =
      ((echoWrites (decodeReplace out)).map Ev.out ++
       (echoWrites (decodeReplace err)).map Ev.err) ++
      (Ev.out BANNER_LINE ::
       Ev.call (invokeVars (cmdStr w p) c (decodeReplace out) (decodeReplace err)) ::
       post) := by
  refine ⟨fun h => writesText_echoWrites h, fun h => by rw [h]; rfl,
          fun h => writesText_echoWrites h, fun h => by rw [h]; rfl, ?_⟩
  rw [main_spawn_ok hf hs]
  exact okRun_events_shape w p c out err

theorem c8_echo_newline_normalization_witness :
    (decodeReplace [104] ≠ [] →
      writesText (echoWrites (decodeReplace [104])) =
        (if endswithNL (decodeReplace [104]) then decodeReplace [104]
         else decodeReplace [104] ++ [10])) ∧
    (decodeReplace [104] = [] → echoWrites (decodeReplace [104]) = []) ∧
    (decodeReplace [] ≠ [] →
      writesText (echoWrites (decodeReplace [])) =
        (if endswithNL (decodeReplace []) then decodeReplace []
         else decodeReplace [] ++ [10])) ∧
    (decodeReplace [] = [] → echoWrites (decodeReplace []) = []) ∧
    ∃ post,
      (main (testWorld (.ok 0 [104] []) (fun _ => .ok []))).events =
        ((echoWrites (decodeReplace [104])).map Ev.out ++
         (echoWrites (decodeReplace [])).map Ev.err) ++
        (Ev.out BANNER_LINE ::
         Ev.call (invokeVars
           (cmdStr (testWorld (.ok 0 [104] []) (fun _ => .ok [])) (str "/x/nc"))
           0 (decodeReplace [104]) (decodeReplace [])) :: post) :=
  c8_echo_newline_normalization (testWorld (.ok 0 [104] []) (fun _ => .ok []))
    (str "/x/nc") 0 [104] [] (by decide) rfl

/-- C9 counterexample: the sentinel exit code is 2, and 2 lies in 0–255, so
the sentinel coincides with a possible child exit code instead of being
distinct from all of them. -/
theorem c9_counterexample :
    SENTINEL_EXIT = 2 ∧ (0 : Int) ≤ 2 ∧ (2 : Int) ≤ 255 := by
  decide

/-- C9 amended: the sentinel is the fixed nonzero code 2; it differs from
every child exit code in 0–255 other than 2 itself. -/
theorem c9_sentinel_distinctness (c : Int) (h0 : 0 ≤ c) (h255 : c ≤ 255)
    (hne : c ≠ 2) : SENTINEL_EXIT ≠ 0 ∧ SENTINEL_EXIT ≠ c := by
  unfold SENTINEL_EXIT
  omega

theorem c9_sentinel_distinctness_witness :
    (0 : Int) ≤ 7 ∧ (7 : Int) ≤ 255 ∧ (7 : Int) ≠ 2 ∧
    (SENTINEL_EXIT ≠ 0 ∧ SENTINEL_EXIT ≠ 7) :=
  ⟨by decide, by decide, by decide,
   c9_sentinel_distinctness 7 (by decide) (by decide) (by decide)⟩

end Ncx
